import Mathlib

/-
  Verification of the semantic-world geometric core
  (moveit_ros/perception/semantic_world).

  The repository ships only the class declaration
  (include/moveit/semantic_world/semantic_world.hpp); the member-function
  bodies are not part of the source tree.  Every operation below is
  therefore modelled from the specification document, faithful to its
  words, over exact rational arithmetic.
-/

namespace SemanticWorld

/-- A 2D point in a surface's local frame (boundary vertices, grid samples). -/
structure P2 where
  x : ℚ
  y : ℚ
deriving DecidableEq, Repr

/-- A 3D vector / position in either the local or the fixed reference frame. -/
structure Vec3 where
  x : ℚ
  y : ℚ
  z : ℚ
deriving DecidableEq, Repr

/-- A quaternion orientation; carried through unmodified by the pose
generator (the caller-supplied orientation of the object). -/
structure Quat where
  w : ℚ
  x : ℚ
  y : ℚ
  z : ℚ
deriving DecidableEq, Repr

/-- Modelled from the spec: a rigid transform (position + orientation) from
the fixed reference frame to the surface local frame, stored as the images
of the three basis vectors (an orthonormal rotation) plus a translation.
The implementation file holding the concrete transform plumbing is not in
the source tree. -/
structure Pose where
  rx : Vec3
  ry : Vec3
  rz : Vec3
  t : Vec3
deriving DecidableEq, Repr

/-- Apply a pose: local coordinates to fixed-frame coordinates. -/
def Pose.apply (p : Pose) (v : Vec3) : Vec3 :=
  ⟨p.rx.x * v.x + p.ry.x * v.y + p.rz.x * v.z + p.t.x,
   p.rx.y * v.x + p.ry.y * v.y + p.rz.y * v.z + p.t.y,
   p.rx.z * v.x + p.ry.z * v.y + p.rz.z * v.z + p.t.z⟩

/-- Inverse of a rigid transform (rotation assumed orthonormal, so the
inverse rotation is the transpose): fixed-frame coordinates to local. -/
def Pose.applyInv (p : Pose) (v : Vec3) : Vec3 :=
  let d : Vec3 := ⟨v.x - p.t.x, v.y - p.t.y, v.z - p.t.z⟩
  ⟨p.rx.x * d.x + p.rx.y * d.y + p.rx.z * d.z,
   p.ry.x * d.x + p.ry.y * d.y + p.ry.z * d.z,
   p.rz.x * d.x + p.rz.y * d.y + p.rz.z * d.z⟩

/-- The identity pose (local frame = fixed frame). -/
def Pose.id : Pose :=
  ⟨⟨1, 0, 0⟩, ⟨0, 1, 0⟩, ⟨0, 0, 1⟩, ⟨0, 0, 0⟩⟩

/-- Modelled from the spec: a registered planar surface ("table"): unique
name, rigid pose, boundary polygon in the local frame (supporting plane is
local Z = 0), and source-frame metadata. -/
structure Surface where
  name : String
  frame_id : String
  pose : Pose
  boundary : List P2
deriving DecidableEq, Repr

/-- A stamped pose: a placement candidate expressed in the fixed frame. -/
structure PoseStamped where
  frame_id : String
  position : Vec3
  orientation : Quat
deriving DecidableEq, Repr

/-- A plain pose message: the query argument of findObjectTable. -/
structure PoseMsg where
  position : Vec3
  orientation : Quat
deriving DecidableEq, Repr

/-- Modelled from the spec: the error taxonomy of the geometric core. -/
inductive SemanticError where
  | DegeneratePolygon : SemanticError
  | InvalidParameter : SemanticError
  | InvalidThickness : SemanticError
  | TransformUnavailable : SemanticError
deriving DecidableEq, Repr

/-- Vector difference of two 2D points. -/
def psub (a b : P2) : P2 := ⟨a.x - b.x, a.y - b.y⟩

/-- Dot product of two 2D vectors. -/
def pdot (a b : P2) : ℚ := a.x * b.x + a.y * b.y

/-- Cross product (z component) of two 2D vectors. -/
def pcross (a b : P2) : ℚ := a.x * b.y - a.y * b.x

/-- Sum of cross products over consecutive pairs of a vertex list (the
open, non-cyclic part of the shoelace sum). -/
def crossSum : List P2 → ℚ
  | a :: b :: rest => pcross a b + crossSum (b :: rest)
  | _ => 0

/-- Twice the signed area of a polygon, by the shoelace formula (the cycle
is closed by appending the first vertex at the end). -/
def signedArea2 : List P2 → ℚ
  | [] => 0
  | a :: rest => crossSum ((a :: rest) ++ [a])

/-- Signed area of a polygon. -/
def signedArea (l : List P2) : ℚ := signedArea2 l / 2

/-- Modelled from the spec: `orientPlanarPolygon` (the spec's
`normalizeWinding`, whose body is not in the source tree): determine the
orientation via the signed area and reverse the vertex order if the sign
is wrong; fail with `DegeneratePolygon` when the signed area is zero
(collinear or zero-area input; exact rationals need no epsilon). -/
def orientPlanarPolygon (poly : List P2) : Except SemanticError (List P2) :=
  let a := signedArea2 poly
  if a = 0 then .error .DegeneratePolygon
  else if a < 0 then .ok poly.reverse
  else .ok poly

/-- The spec's name for `orientPlanarPolygon`. -/
def normalizeWinding (poly : List P2) : Except SemanticError (List P2) :=
  orientPlanarPolygon poly

/-- The normalized boundary when normalization succeeds, the input
unchanged otherwise. -/
def normed (poly : List P2) : List P2 :=
  match orientPlanarPolygon poly with
  | .ok q => q
  | .error _ => poly

/-- The cyclic edge list of a polygon: each vertex paired with its
successor, the last one wrapping around to the first. -/
def polyEdges (l : List P2) : List (P2 × P2) := l.zip (l.rotate 1)

/-- Whether `p` lies on the closed segment from `a` to `b`. -/
def onSegment (p a b : P2) : Bool :=
  decide (pcross (psub b a) (psub p a) = 0 ∧
    0 ≤ pdot (psub p a) (psub b a) ∧ 0 ≤ pdot (psub p b) (psub a b))

/-- Whether `p` lies on the boundary of the polygon. -/
def onBoundary (p : P2) (poly : List P2) : Bool :=
  (polyEdges poly).any fun e => onSegment p e.1 e.2

/-- Whether the horizontal ray from `p` toward +x crosses the edge from
`a` to `b` (the standard exact crossing-number edge test). -/
def edgeCrosses (p a b : P2) : Bool :=
  decide (((a.y ≤ p.y ∧ p.y < b.y) ∨ (b.y ≤ p.y ∧ p.y < a.y)) ∧
    p.x < a.x + (p.y - a.y) * (b.x - a.x) / (b.y - a.y))

/-- Whether `p` lies in the closed region bounded by the polygon:
on the boundary, or with an odd crossing number. -/
def inPoly (p : P2) (poly : List P2) : Bool :=
  onBoundary p poly ||
    ((polyEdges poly).countP (fun e => edgeCrosses p e.1 e.2)) % 2 == 1

/-- Squared distance from `p` to the closed segment from `a` to `b`
(the projection parameter is clamped to [0, 1]). -/
def distSqToSegment (p a b : P2) : ℚ :=
  let d := psub b a
  let len2 := pdot d d
  if len2 = 0 then pdot (psub p a) (psub p a)
  else
    let s := pdot (psub p a) d / len2
    let c := if s < 0 then 0 else if 1 < s then 1 else s
    let q : P2 := ⟨a.x + c * d.x, a.y + c * d.y⟩
    pdot (psub p q) (psub p q)

/-- Modelled from the spec: `pointInPolygon(point, polygon, tolerance)`:
a crossing-number containment test in the local frame, with the tolerance
requiring the distance from the point to every edge to meet the
`min_distance_from_edge` margin (compared on squares to stay exact). -/
def pointInPolygon (p : P2) (poly : List P2) (tol : ℚ) : Bool :=
  inPoly p poly &&
    (decide (tol ≤ 0) ||
      (polyEdges poly).all fun e => decide (tol * tol ≤ distSqToSegment p e.1 e.2))

/-- Floor of a rational number, written so that it evaluates by kernel
reduction (the denominator is positive, so integer division of the
numerator by the denominator is the floor). -/
def ratFloor (q : ℚ) : ℤ := q.num / q.den

/-- The 2D axis-aligned bounding box of a vertex list, `none` when the
list is empty. -/
structure BBox where
  minx : ℚ
  miny : ℚ
  maxx : ℚ
  maxy : ℚ
deriving DecidableEq, Repr

/-- Compute the bounding box of a boundary polygon. -/
def bbox2 : List P2 → Option BBox
  | [] => none
  | p :: rest =>
    some (rest.foldl
      (fun b q => ⟨min b.minx q.x, min b.miny q.y, max b.maxx q.x, max b.maxy q.y⟩)
      ⟨p.x, p.y, p.x, p.y⟩)

/-- Number of grid samples along one axis: the values `lo + i * res`
with `i = 0, 1, ...` while the value stays at or below `hi`. -/
def gridCount (lo hi res : ℚ) : ℕ :=
  if hi < lo then 0 else (ratFloor ((hi - lo) / res)).toNat + 1

/-- The grid samples along one axis, in ascending order. -/
def gridVals (lo hi res : ℚ) : List ℚ :=
  (List.range (gridCount lo hi res)).map fun i => lo + i * res

/-- Concatenation of the lists produced by `f` over a list, in order
(the shape of the nested sampling loops). -/
def listFlat (f : α → List β) : List α → List β
  | [] => []
  | a :: rest => f a ++ listFlat f rest

/-- The full 2D sample grid in row-major scan order: the outer loop walks
the X axis, the inner loop the Y axis. -/
def gridPoints (xs ys : List ℚ) : List P2 :=
  listFlat (fun x => ys.map fun y => ⟨x, y⟩) xs

/-- The sample grid of a (normalized) boundary polygon at a given
resolution: a regular walk over its bounding box in both axes. -/
def surfaceGrid (b : List P2) (res : ℚ) : List P2 :=
  match bbox2 b with
  | none => []
  | some bb => gridPoints (gridVals bb.minx bb.maxx res) (gridVals bb.miny bb.maxy res)

/-- The grid points that survive the edge-distance filter. -/
def acceptedPoints (b : List P2) (res mde : ℚ) : List P2 :=
  (surfaceGrid b res).filter fun p => pointInPolygon p b mde

/-- Build one placement candidate: local grid point and local height,
transformed into the fixed frame by the surface pose, carrying the
caller-supplied orientation. -/
def mkPlacePose (table : Surface) (orient : Quat) (p : P2) (z : ℚ) : PoseStamped :=
  ⟨table.frame_id, table.pose.apply ⟨p.x, p.y, z⟩, orient⟩

/-- Inner loop of the generator: push the `1 + num_heights` stacked
candidates for one accepted grid point onto the accumulator. -/
def pushHeights (emit : ℕ → PoseStamped) (nh : ℕ) (acc : List PoseStamped) : List PoseStamped :=
  (List.range (nh + 1)).foldl (fun a k => a ++ [emit k]) acc

/-- Outer loops of the generator: walk the grid, filter each point, and
accumulate the stacked candidates of the accepted ones. -/
def genAll (accept : P2 → Bool) (emit : P2 → ℕ → PoseStamped) (nh : ℕ)
    (pts : List P2) : List PoseStamped :=
  pts.foldl (fun a p => if accept p then pushHeights (emit p) nh a else a) []

/-- Modelled from the spec: the canonical `generatePlacePoses(table,
resolution, height_above_table, delta_height, num_heights,
min_distance_from_edge)` whose body is not in the source tree.  Fails
with `InvalidParameter` when `resolution ≤ 0`; normalizes the boundary
winding (surfacing `DegeneratePolygon`); walks a regular grid over the
boundary bounding box; keeps points passing `pointInPolygon` with the
edge margin; emits `1 + num_heights` stacked candidates per accepted
point at local Z = `height_above_table + k * delta_height`; transforms
every candidate to the fixed frame by the surface pose. -/
def generatePlacePoses (table : Surface) (orient : Quat) (resolution height_above_table
    delta_height : ℚ) (num_heights : ℕ) (min_distance_from_edge : ℚ) :
    Except SemanticError (List PoseStamped) :=
  if resolution ≤ 0 then .error .InvalidParameter
  else
    match orientPlanarPolygon table.boundary with
    | .error e => .error e
    | .ok nb =>
      .ok (genAll (fun p => pointInPolygon p nb min_distance_from_edge)
        (fun p k => mkPlacePose table orient p (height_above_table + (k : ℚ) * delta_height))
        num_heights (surfaceGrid nb resolution))

/-- The number of candidates a call produces (zero when the call fails). -/
def placeCount (table : Surface) (orient : Quat) (resolution height_above_table
    delta_height : ℚ) (num_heights : ℕ) (min_distance_from_edge : ℚ) : ℕ :=
  match generatePlacePoses table orient resolution height_above_table delta_height
      num_heights min_distance_from_edge with
  | .ok l => l.length
  | .error _ => 0

/-- Modelled from the spec: `isInsideTableContour(pose, table,
min_distance_from_edge, min_vertical_offset)` (body not in the source
tree): transform the query pose into the surface local frame, test the
projected (x, y) with `pointInPolygon` under the edge margin, and require
the local Z to lie at or above the surface plane by at least the vertical
offset. -/
def isInsideTableContour (pose : PoseMsg) (table : Surface)
    (min_distance_from_edge min_vertical_offset : ℚ) : Bool :=
  let lp := table.pose.applyInv pose.position
  pointInPolygon ⟨lp.x, lp.y⟩ (normed table.boundary) min_distance_from_edge &&
    decide (min_vertical_offset ≤ lp.z)

/-- Modelled from the spec: `findObjectTable(pose, min_distance_from_edge,
min_vertical_offset)` (body not in the source tree): scan the registered
surfaces in the registry's stable iteration order and return the name of
the first one whose contour contains the pose; the empty string-as-not-found
when no surface qualifies. -/
def findObjectTable (tables : List Surface) (pose : PoseMsg)
    (min_distance_from_edge min_vertical_offset : ℚ) : String :=
  match tables with
  | [] => ""
  | t :: rest =>
    if isInsideTableContour pose t min_distance_from_edge min_vertical_offset then t.name
    else findObjectTable rest pose min_distance_from_edge min_vertical_offset

/-- Whether a fixed-frame point lies within the closed axis-aligned box. -/
def inROI (v : Vec3) (minx miny minz maxx maxy maxz : ℚ) : Bool :=
  decide (minx ≤ v.x ∧ v.x ≤ maxx ∧ miny ≤ v.y ∧ v.y ≤ maxy ∧ minz ≤ v.z ∧ v.z ≤ maxz)

/-- Whether any vertex of the surface boundary, transformed into the
fixed reference frame by the surface pose, lies within the box. -/
def anyVertexInROI (t : Surface) (minx miny minz maxx maxy maxz : ℚ) : Bool :=
  t.boundary.any fun v => inROI (t.pose.apply ⟨v.x, v.y, 0⟩) minx miny minz maxx maxy maxz

/-- Modelled from the spec: `getTablesInROI` (body not in the source
tree): keep exactly the surfaces with at least one transformed boundary
vertex inside the query box — a vertex-wise approximation, not full
polygon/box clipping. -/
def getTablesInROI (tables : List Surface) (minx miny minz maxx maxy maxz : ℚ) :
    List Surface :=
  match tables with
  | [] => []
  | t :: rest =>
    if anyVertexInROI t minx miny minz maxx maxy maxz then
      t :: getTablesInROI rest minx miny minz maxx maxy maxz
    else getTablesInROI rest minx miny minz maxx maxy maxz

/-- Modelled from the spec: `getTableNamesInROI`, the name-only variant of
the same vertex-wise region query. -/
def getTableNamesInROI (tables : List Surface) (minx miny minz maxx maxy maxz : ℚ) :
    List String :=
  match tables with
  | [] => []
  | t :: rest =>
    if anyVertexInROI t minx miny minz maxx maxy maxz then
      t.name :: getTableNamesInROI rest minx miny minz maxx maxy maxz
    else getTableNamesInROI rest minx miny minz maxx maxy maxz

/-- A triangle mesh: fixed-frame vertices and index triangles. -/
structure Mesh where
  vertices : List Vec3
  triangles : List (ℕ × ℕ × ℕ)
deriving DecidableEq, Repr

/-- Whether `p` lies in the closed triangle `a b c` (assumed counter-
clockwise). -/
def pointInTriangle (p a b c : P2) : Bool :=
  decide (0 ≤ pcross (psub b a) (psub p a) ∧ 0 ≤ pcross (psub c b) (psub p b) ∧
    0 ≤ pcross (psub a c) (psub p c))

/-- Ear test for the vertex at position `i` of the working polygon: the
corner is convex and no other vertex lies inside its triangle. -/
def isEarAt (l : List (ℕ × P2)) (i : ℕ) : Bool :=
  let n := l.length
  match l.get? ((i + n - 1) % n), l.get? i, l.get? ((i + 1) % n) with
  | some a, some b, some c =>
    decide (0 < pcross (psub b.2 a.2) (psub c.2 b.2)) &&
      l.all fun v =>
        (v.1 == a.1 || v.1 == b.1 || v.1 == c.1) || !pointInTriangle v.2 a.2 b.2 c.2
  | _, _, _ => false

/-- Find the position of the first ear of the working polygon. -/
def findEar (l : List (ℕ × P2)) : ℕ :=
  match (List.range l.length).find? (fun i => isEarAt l i) with
  | some i => i
  | none => 0

/-- Ear-clipping triangulation of a counter-clockwise simple polygon
(fuel-bounded recursion; each step clips one ear). -/
def earClip : ℕ → List (ℕ × P2) → List (ℕ × ℕ × ℕ)
  | _, [a, b, c] => [(a.1, b.1, c.1)]
  | 0, _ => []
  | fuel + 1, l =>
    if l.length < 3 then []
    else
      let i := findEar l
      let n := l.length
      match l.get? ((i + n - 1) % n), l.get? i, l.get? ((i + 1) % n) with
      | some a, some b, some c => (a.1, b.1, c.1) :: earClip fuel (l.eraseIdx i)
      | _, _, _ => []

/-- Triangulate a counter-clockwise simple polygon, returning index
triples into the vertex list. -/
def triangulate (b : List P2) : List (ℕ × ℕ × ℕ) :=
  earClip b.length ((List.range b.length).zip b)

/-- Build the extruded solid: bottom face at local Z = 0 (wound downward),
top face at Z = thickness, and a band of side triangles joining the two
copies of each boundary edge. -/
def extrudeMesh (b : List P2) (thickness : ℚ) : Mesh :=
  let n := b.length
  let bottom := b.map fun p => Vec3.mk p.x p.y 0
  let top := b.map fun p => Vec3.mk p.x p.y thickness
  let faceTris := triangulate b
  let bottomTris := faceTris.map fun t => (t.1, t.2.2, t.2.1)
  let topTris := faceTris.map fun t => (n + t.1, n + t.2.1, n + t.2.2)
  let sideTris := listFlat
    (fun i => [(i, (i + 1) % n, n + (i + 1) % n), (i, n + (i + 1) % n, n + i)])
    (List.range n)
  ⟨bottom ++ top, bottomTris ++ topTris ++ sideTris⟩

/-- Modelled from the spec: `createSolidMeshFromPlanarPolygon(polygon,
thickness)` (the spec's `extrudeSolid`; body not in the source tree):
requires `thickness > 0` and fails with `InvalidThickness` otherwise;
normalizes the boundary winding and extrudes the planar region by the
thickness along the surface normal. -/
def createSolidMeshFromPlanarPolygon (polygon : List P2) (thickness : ℚ) :
    Except SemanticError Mesh :=
  if thickness ≤ 0 then .error .InvalidThickness
  else
    match orientPlanarPolygon polygon with
    | .error e => .error e
    | .ok nb => .ok (extrudeMesh nb thickness)

/-- An axis-aligned bounding box standing in for the object shape handed
to the parameter-inferring overloads of `generatePlacePoses`. -/
structure ShapeBox where
  dx : ℚ
  dy : ℚ
  dz : ℚ
deriving DecidableEq, Repr

/-- Modelled from the spec: the overloads choose `height_above_table`
from the object's bounding geometry (half its height, so the object rests
on the plane). -/
def inferredHeightAboveTable (s : ShapeBox) : ℚ := s.dz / 2

/-- Modelled from the spec: the overloads choose `min_distance_from_edge`
from the object's bounding geometry (half its larger horizontal extent). -/
def inferredMinDistanceFromEdge (s : ShapeBox) : ℚ := max s.dx s.dy / 2

/-- The registry state of the semantic world: the current surface set in
its stable iteration order, and whether a table callback is registered. -/
structure WorldState where
  tables : List Surface
  hasCallback : Bool
deriving DecidableEq, Repr

/-- State-passing wrapper of the region query (a const member). -/
def getTablesInROIOp (w : WorldState) (minx miny minz maxx maxy maxz : ℚ) :
    WorldState × List Surface :=
  (w, getTablesInROI w.tables minx miny minz maxx maxy maxz)

/-- State-passing wrapper of the name-only region query (a const member). -/
def getTableNamesInROIOp (w : WorldState) (minx miny minz maxx maxy maxz : ℚ) :
    WorldState × List String :=
  (w, getTableNamesInROI w.tables minx miny minz maxx maxy maxz)

/-- State-passing wrapper of the canonical generator (a const member). -/
def generatePlacePosesOp (w : WorldState) (table : Surface) (orient : Quat)
    (resolution height_above_table delta_height : ℚ) (num_heights : ℕ)
    (min_distance_from_edge : ℚ) : WorldState × Except SemanticError (List PoseStamped) :=
  (w, generatePlacePoses table orient resolution height_above_table delta_height
    num_heights min_distance_from_edge)

/-- State-passing wrapper of the surface + object-shape overload (a const
member): infers the height and edge margin from the shape and delegates. -/
def generatePlacePosesForObjectOp (w : WorldState) (table : Surface) (shape : ShapeBox)
    (orient : Quat) (resolution delta_height : ℚ) (num_heights : ℕ) :
    WorldState × Except SemanticError (List PoseStamped) :=
  (w, generatePlacePoses table orient resolution (inferredHeightAboveTable shape)
    delta_height num_heights (inferredMinDistanceFromEdge shape))

/-- State-passing wrapper of the by-name overload (a const member):
resolves the table in the registry and delegates; an unknown name yields
an empty sequence. -/
def generatePlacePosesByNameOp (w : WorldState) (table_name : String) (shape : ShapeBox)
    (orient : Quat) (resolution delta_height : ℚ) (num_heights : ℕ) :
    WorldState × Except SemanticError (List PoseStamped) :=
  (w, match w.tables.find? (fun t => t.name == table_name) with
    | none => .ok []
    | some t => generatePlacePoses t orient resolution (inferredHeightAboveTable shape)
        delta_height num_heights (inferredMinDistanceFromEdge shape))

/-- State-passing wrapper of `findObjectTable` (a const member). -/
def findObjectTableOp (w : WorldState) (pose : PoseMsg)
    (min_distance_from_edge min_vertical_offset : ℚ) : WorldState × String :=
  (w, findObjectTable w.tables pose min_distance_from_edge min_vertical_offset)

/-- State-passing wrapper of `isInsideTableContour` (a const member). -/
def isInsideTableContourOp (w : WorldState) (pose : PoseMsg) (table : Surface)
    (min_distance_from_edge min_vertical_offset : ℚ) : WorldState × Bool :=
  (w, isInsideTableContour pose table min_distance_from_edge min_vertical_offset)

/-- Appending an element to each step of a push-back fold is appending
the mapped list. -/
lemma foldl_push {α β : Type} (f : α → β) :
    ∀ (l : List α) (acc : List β), l.foldl (fun a k => a ++ [f k]) acc = acc ++ l.map f
  | [], acc => by simp
  | k :: t, acc => by
    simp only [List.foldl_cons, List.map_cons, foldl_push f t]
    simp

/-- The accumulator form of the generator loop, with an explicit starting
accumulator. -/
lemma genAll_aux (accept : P2 → Bool) (emit : P2 → ℕ → PoseStamped) (nh : ℕ) :
    ∀ (pts : List P2) (acc : List PoseStamped),
      pts.foldl (fun a p => if accept p then pushHeights (emit p) nh a else a) acc =
        acc ++ listFlat (fun p => (List.range (nh + 1)).map (emit p)) (pts.filter accept)
  | [], acc => by simp [listFlat]
  | p :: t, acc => by
    cases h : accept p with
    | false =>
      simp only [List.foldl_cons, h, Bool.false_eq_true, if_false]
      rw [genAll_aux accept emit nh t acc, List.filter_cons, h]
      simp
    | true =>
      simp only [List.foldl_cons, h, if_true]
      rw [genAll_aux accept emit nh t (pushHeights (emit p) nh acc)]
      rw [pushHeights, foldl_push, List.filter_cons, h]
      simp [listFlat]

/-- The imperative generator loop equals declarative filtering followed by
per-point height stacking. -/
lemma genAll_eq (accept : P2 → Bool) (emit : P2 → ℕ → PoseStamped) (nh : ℕ)
    (pts : List P2) :
    genAll accept emit nh pts =
      listFlat (fun p => (List.range (nh + 1)).map (emit p)) (pts.filter accept) := by
  rw [genAll, genAll_aux]
  simp

/-- Stacking a fixed number of heights over each accepted point multiplies
the count. -/
lemma listFlat_length_const {α β : Type} (f : α → List β) (c : ℕ)
    (hc : ∀ a, (f a).length = c) : ∀ l : List α, (listFlat f l).length = l.length * c
  | [] => by simp [listFlat]
  | a :: t => by
    simp [listFlat, hc a, listFlat_length_const f c hc t, Nat.succ_mul, Nat.add_comm]

/-- A pointwise-stronger filter keeps at most as many elements. -/
lemma filter_length_mono {α : Type} (p q : α → Bool) (h : ∀ a, p a = true → q a = true) :
    ∀ l : List α, (l.filter p).length ≤ (l.filter q).length
  | [] => le_refl 0
  | a :: t => by
    rw [List.filter_cons, List.filter_cons]
    cases hp : p a with
    | false =>
      cases hq : q a with
      | false => simpa using filter_length_mono p q h t
      | true =>
        simp only [Bool.false_eq_true, if_false, if_true, List.length_cons]
        exact le_trans (filter_length_mono p q h t) (Nat.le_succ _)
    | true =>
      rw [h a hp]
      simpa using filter_length_mono p q h t

/-- A larger edge margin only rejects more grid points. -/
lemma pointInPolygon_mono (p : P2) (b : List P2) {d1 d2 : ℚ} (h12 : d1 ≤ d2)
    (h : pointInPolygon p b d2 = true) : pointInPolygon p b d1 = true := by
  rw [pointInPolygon, Bool.and_eq_true] at h ⊢
  refine ⟨h.1, ?_⟩
  rcases Bool.or_eq_true _ _ |>.mp h.2 with h2 | h2
  · have hd2 : d2 ≤ 0 := of_decide_eq_true h2
    exact Bool.or_eq_true _ _ |>.mpr (Or.inl (decide_eq_true (le_trans h12 hd2)))
  · by_cases hd1 : d1 ≤ 0
    · exact Bool.or_eq_true _ _ |>.mpr (Or.inl (decide_eq_true hd1))
    · have h0 : (0 : ℚ) ≤ d1 := le_of_lt (lt_of_not_ge hd1)
      refine Bool.or_eq_true _ _ |>.mpr (Or.inr ?_)
      rw [List.all_eq_true] at h2 ⊢
      intro e he
      have := of_decide_eq_true (h2 e he)
      exact decide_eq_true (le_trans (mul_self_le_mul_self h0 h12) this)

/-- The 2D cross product is antisymmetric. -/
lemma pcross_antisymm (a b : P2) : pcross a b = -pcross b a := by
  simp [pcross]
  ring

/-- Closing the chain with one more vertex adds one cross term. -/
lemma crossSum_append_single :
    ∀ (l : List P2) (h : l ≠ []) (x : P2),
      crossSum (l ++ [x]) = crossSum l + pcross (l.getLast h) x
  | [a], _, x => by simp [crossSum]
  | a :: b :: t, _, x => by
    have ih := crossSum_append_single (b :: t) (by simp) x
    show crossSum (a :: b :: (t ++ [x])) = crossSum (a :: b :: t) + _
    rw [crossSum, crossSum]
    rw [show b :: (t ++ [x]) = (b :: t) ++ [x] from rfl, ih]
    rw [List.getLast_cons (show (b :: t) ≠ [] from by simp)]
    ring

/-- Reversing a chain negates the open cross-product sum. -/
lemma crossSum_reverse : ∀ l : List P2, crossSum l.reverse = -crossSum l
  | [] => by simp [crossSum]
  | [a] => by simp [crossSum]
  | a :: b :: t => by
    have ih := crossSum_reverse (b :: t)
    have hrev : (a :: b :: t).reverse = (b :: t).reverse ++ [a] := by simp
    have hne : (b :: t).reverse ≠ [] := by simp
    rw [hrev, crossSum_append_single _ hne a]
    rw [List.getLast_reverse hne]
    simp only [List.head_cons]
    rw [ih, crossSum, pcross_antisymm b a]
    ring

/-- The closed shoelace sum of a nonempty polygon. -/
lemma signedArea2_eq_crossSum (l : List P2) (h : l ≠ []) :
    signedArea2 l = crossSum (l ++ [l.head h]) := by
  cases l with
  | nil => exact absurd rfl h
  | cons a t => rfl

/-- Reversing a polygon negates its signed area. -/
lemma signedArea2_reverse : ∀ l : List P2, signedArea2 l.reverse = -signedArea2 l
  | [] => by simp [signedArea2]
  | a :: t => by
    have hne : (a :: t) ≠ [] := by simp
    have hrne : (a :: t).reverse ≠ [] := by simp
    rw [signedArea2_eq_crossSum _ hrne, signedArea2_eq_crossSum (a :: t) hne]
    rw [crossSum_append_single _ hrne, crossSum_append_single _ hne]
    rw [crossSum_reverse (a :: t), List.getLast_reverse hrne, List.head_reverse hrne]
    rw [pcross_antisymm]
    ring

/-- The registry scan of `findObjectTable` is a first-match search. -/
lemma findObjectTable_eq_find (pose : PoseMsg) (d v : ℚ) :
    ∀ tables : List Surface,
      findObjectTable tables pose d v =
        ((tables.find? fun t => isInsideTableContour pose t d v).elim "" fun t => t.name)
  | [] => rfl
  | t :: rest => by
    cases h : isInsideTableContour pose t d v with
    | true => simp [findObjectTable, h, List.find?_cons, Option.elim]
    | false =>
      simp only [findObjectTable, h, Bool.false_eq_true, if_false]
      rw [findObjectTable_eq_find pose d v rest]
      simp [List.find?_cons, h]

/-- Membership in the region query is the vertex-in-box criterion. -/
lemma mem_getTablesInROI (minx miny minz maxx maxy maxz : ℚ) :
    ∀ (tables : List Surface) (s : Surface),
      s ∈ getTablesInROI tables minx miny minz maxx maxy maxz ↔
        s ∈ tables ∧ anyVertexInROI s minx miny minz maxx maxy maxz = true
  | [], s => by simp [getTablesInROI]
  | t :: rest, s => by
    cases h : anyVertexInROI t minx miny minz maxx maxy maxz with
    | true =>
      simp only [getTablesInROI, h, if_true, List.mem_cons,
        mem_getTablesInROI minx miny minz maxx maxy maxz rest s]
      constructor
      · rintro (rfl | ⟨hs, hp⟩)
        · exact ⟨Or.inl rfl, h⟩
        · exact ⟨Or.inr hs, hp⟩
      · rintro ⟨rfl | hs, hp⟩
        · exact Or.inl rfl
        · exact Or.inr ⟨hs, hp⟩
    | false =>
      simp only [getTablesInROI, h, Bool.false_eq_true, if_false, List.mem_cons,
        mem_getTablesInROI minx miny minz maxx maxy maxz rest s]
      constructor
      · rintro ⟨hs, hp⟩
        exact ⟨Or.inr hs, hp⟩
      · rintro ⟨rfl | hs, hp⟩
        · exact absurd hp (by simp [h])
        · exact ⟨hs, hp⟩

/-- The name-only region query lists the names of the full region query. -/
lemma getTableNamesInROI_eq_map (minx miny minz maxx maxy maxz : ℚ) :
    ∀ tables : List Surface,
      getTableNamesInROI tables minx miny minz maxx maxy maxz =
        (getTablesInROI tables minx miny minz maxx maxy maxz).map Surface.name
  | [] => rfl
  | t :: rest => by
    cases h : anyVertexInROI t minx miny minz maxx maxy maxz with
    | true =>
      simp [getTableNamesInROI, getTablesInROI, h,
        getTableNamesInROI_eq_map minx miny minz maxx maxy maxz rest]
    | false =>
      simp [getTableNamesInROI, getTablesInROI, h,
        getTableNamesInROI_eq_map minx miny minz maxx maxy maxz rest]

/-- The canonical generator, for a positive resolution and a boundary
that normalizes, is declarative grid filtering followed by height
stacking in grid order. -/
lemma generatePlacePoses_char (table : Surface) (orient : Quat) (res hat dh : ℚ)
    (nh : ℕ) (mde : ℚ) (nb : List P2) (hres : 0 < res)
    (hok : orientPlanarPolygon table.boundary = .ok nb) :
    generatePlacePoses table orient res hat dh nh mde =
      .ok (listFlat
        (fun p => (List.range (nh + 1)).map fun (k : ℕ) =>
          mkPlacePose table orient p (hat + (k : ℚ) * dh))
        (acceptedPoints nb res mde)) := by
  rw [generatePlacePoses, if_neg (not_le.mpr hres), hok]
  change Except.ok _ = _
  rw [genAll_eq]
  rfl

/-- C1: on the axis-aligned unit square with local corners (0,0) and
(1,1), the canonical `generatePlacePoses` with resolution 1/2, zero edge
margin, height 1/10 above the table, height step 1/20 and one extra
height returns exactly the 18 candidates: each of the 9 grid points (x, y)
in {0, 1/2, 1} × {0, 1/2, 1} at the two local heights Z = 1/10 and
Z = 3/20. -/
theorem generatePlacePoses_unit_square_grid :
    generatePlacePoses ⟨"table1", "world", Pose.id, [⟨0, 0⟩, ⟨1, 0⟩, ⟨1, 1⟩, ⟨0, 1⟩]⟩
      ⟨1, 0, 0, 0⟩ (1/2) (1/10) (1/20) 1 0 =
    .ok [⟨"world", ⟨0, 0, 1/10⟩, ⟨1, 0, 0, 0⟩⟩, ⟨"world", ⟨0, 0, 3/20⟩, ⟨1, 0, 0, 0⟩⟩,
      ⟨"world", ⟨0, 1/2, 1/10⟩, ⟨1, 0, 0, 0⟩⟩, ⟨"world", ⟨0, 1/2, 3/20⟩, ⟨1, 0, 0, 0⟩⟩,
      ⟨"world", ⟨0, 1, 1/10⟩, ⟨1, 0, 0, 0⟩⟩, ⟨"world", ⟨0, 1, 3/20⟩, ⟨1, 0, 0, 0⟩⟩,
      ⟨"world", ⟨1/2, 0, 1/10⟩, ⟨1, 0, 0, 0⟩⟩, ⟨"world", ⟨1/2, 0, 3/20⟩, ⟨1, 0, 0, 0⟩⟩,
      ⟨"world", ⟨1/2, 1/2, 1/10⟩, ⟨1, 0, 0, 0⟩⟩, ⟨"world", ⟨1/2, 1/2, 3/20⟩, ⟨1, 0, 0, 0⟩⟩,
      ⟨"world", ⟨1/2, 1, 1/10⟩, ⟨1, 0, 0, 0⟩⟩, ⟨"world", ⟨1/2, 1, 3/20⟩, ⟨1, 0, 0, 0⟩⟩,
      ⟨"world", ⟨1, 0, 1/10⟩, ⟨1, 0, 0, 0⟩⟩, ⟨"world", ⟨1, 0, 3/20⟩, ⟨1, 0, 0, 0⟩⟩,
      ⟨"world", ⟨1, 1/2, 1/10⟩, ⟨1, 0, 0, 0⟩⟩, ⟨"world", ⟨1, 1/2, 3/20⟩, ⟨1, 0, 0, 0⟩⟩,
      ⟨"world", ⟨1, 1, 1/10⟩, ⟨1, 0, 0, 0⟩⟩, ⟨"world", ⟨1, 1, 3/20⟩, ⟨1, 0, 0, 0⟩⟩] := by
  with_unfolding_all rfl

/-- C3: a non-positive resolution fails with `InvalidParameter` (never
silently clamped, defaulted or turned into an empty success), while a
valid call whose grid leaves no accepted sample point returns the empty
candidate sequence as a success, not an error. -/
theorem generatePlacePoses_resolution_guard :
    (∀ (table : Surface) (orient : Quat) (res hat dh : ℚ) (nh : ℕ) (mde : ℚ),
        res ≤ 0 →
        generatePlacePoses table orient res hat dh nh mde = .error .InvalidParameter) ∧
    (∀ (table : Surface) (orient : Quat) (res hat dh : ℚ) (nh : ℕ) (mde : ℚ)
        (nb : List P2),
        0 < res → orientPlanarPolygon table.boundary = .ok nb →
        acceptedPoints nb res mde = [] →
        generatePlacePoses table orient res hat dh nh mde = .ok []) := by
  constructor
  · intro table orient res hat dh nh mde hres
    rw [generatePlacePoses, if_pos hres]
  · intro table orient res hat dh nh mde nb hres hok hacc
    rw [generatePlacePoses_char table orient res hat dh nh mde nb hres hok, hacc]
    rfl

/-- Witness for C3: resolution -1 on the unit square is rejected with
`InvalidParameter`, and an edge margin of 100 rejects every grid point of
the unit square yet returns an empty success. -/
theorem generatePlacePoses_resolution_guard_witness :
    generatePlacePoses ⟨"table1", "world", Pose.id, [⟨0, 0⟩, ⟨1, 0⟩, ⟨1, 1⟩, ⟨0, 1⟩]⟩
        ⟨1, 0, 0, 0⟩ (-1) (1/10) (1/20) 1 0 = .error .InvalidParameter ∧
      generatePlacePoses ⟨"table1", "world", Pose.id, [⟨0, 0⟩, ⟨1, 0⟩, ⟨1, 1⟩, ⟨0, 1⟩]⟩
        ⟨1, 0, 0, 0⟩ (1/2) (1/10) (1/20) 1 100 = .ok [] :=
  ⟨generatePlacePoses_resolution_guard.1 _ ⟨1, 0, 0, 0⟩ (-1) (1/10) (1/20) 1 0
      (by norm_num),
    generatePlacePoses_resolution_guard.2 _ ⟨1, 0, 0, 0⟩ (1/2) (1/10) (1/20) 1 100
      [⟨0, 0⟩, ⟨1, 0⟩, ⟨1, 1⟩, ⟨0, 1⟩] (by norm_num)
      (by with_unfolding_all rfl) (by with_unfolding_all rfl)⟩

/-- C8: extruding a planar polygon into a solid mesh requires a positive
thickness: for every boundary polygon, a thickness at or below zero fails
with `InvalidThickness` and no mesh is produced. -/
theorem createSolidMesh_thickness_guard :
    ∀ (polygon : List P2) (thickness : ℚ), thickness ≤ 0 →
      createSolidMeshFromPlanarPolygon polygon thickness = .error .InvalidThickness := by
  intro polygon thickness h
  rw [createSolidMeshFromPlanarPolygon, if_pos h]

/-- Witness for C8: extruding the unit square with thickness exactly zero
fails with `InvalidThickness`. -/
theorem createSolidMesh_thickness_guard_witness :
    createSolidMeshFromPlanarPolygon [⟨0, 0⟩, ⟨1, 0⟩, ⟨1, 1⟩, ⟨0, 1⟩] 0 =
      .error .InvalidThickness :=
  createSolidMesh_thickness_guard [⟨0, 0⟩, ⟨1, 0⟩, ⟨1, 1⟩, ⟨0, 1⟩] 0 (by norm_num)

/-- C10: every query operation — both region queries, all three
`generatePlacePoses` overloads, `findObjectTable` and
`isInsideTableContour` — returns the registry state (surface set and
callback registration) unchanged. -/
theorem queries_preserve_registry_state :
    ∀ (w : WorldState) (table : Surface) (table_name : String) (shape : ShapeBox)
      (orient : Quat) (pose : PoseMsg) (minx miny minz maxx maxy maxz : ℚ)
      (res hat dh : ℚ) (nh : ℕ) (mde mvo : ℚ),
      (getTablesInROIOp w minx miny minz maxx maxy maxz).1 = w ∧
      (getTableNamesInROIOp w minx miny minz maxx maxy maxz).1 = w ∧
      (generatePlacePosesOp w table orient res hat dh nh mde).1 = w ∧
      (generatePlacePosesForObjectOp w table shape orient res dh nh).1 = w ∧
      (generatePlacePosesByNameOp w table_name shape orient res dh nh).1 = w ∧
      (findObjectTableOp w pose mde mvo).1 = w ∧
      (isInsideTableContourOp w pose table mde mvo).1 = w := by
  intro w table table_name shape orient pose minx miny minz maxx maxy maxz res hat dh
    nh mde mvo
  exact ⟨rfl, rfl, rfl, rfl, rfl, rfl, rfl⟩

/-- C2: for every valid call (positive resolution, normalizable
boundary), the canonical generator returns exactly the accepted grid
points in row-major grid scan order, each expanded — in ascending height
order — into `1 + num_heights` candidates at local Z =
`height_above_table + k * delta_height` for k = 0..num_heights, all
carrying the caller-supplied orientation; in particular the candidate
count is the accepted-point count times `1 + num_heights`. -/
theorem generatePlacePoses_rowmajor_heights :
    ∀ (table : Surface) (orient : Quat) (res hat dh : ℚ) (nh : ℕ) (mde : ℚ)
      (nb : List P2),
      0 < res → orientPlanarPolygon table.boundary = .ok nb →
      generatePlacePoses table orient res hat dh nh mde =
        .ok (listFlat
          (fun p => (List.range (nh + 1)).map fun (k : ℕ) =>
            mkPlacePose table orient p (hat + (k : ℚ) * dh))
          (acceptedPoints nb res mde)) ∧
      placeCount table orient res hat dh nh mde =
        (acceptedPoints nb res mde).length * (nh + 1) := by
  intro table orient res hat dh nh mde nb hres hok
  have hchar := generatePlacePoses_char table orient res hat dh nh mde nb hres hok
  refine ⟨hchar, ?_⟩
  rw [placeCount, hchar]
  exact listFlat_length_const _ (nh + 1) (fun p => by simp) _

/-- Witness for C2: the unit square at resolution 1/2 and margin 0 with
one extra height yields the declarative candidate list and the count
9 * 2. -/
theorem generatePlacePoses_rowmajor_heights_witness :
    generatePlacePoses ⟨"table1", "world", Pose.id, [⟨0, 0⟩, ⟨1, 0⟩, ⟨1, 1⟩, ⟨0, 1⟩]⟩
        ⟨1, 0, 0, 0⟩ (1/2) (1/10) (1/20) 1 0 =
      .ok (listFlat
        (fun p => (List.range 2).map fun (k : ℕ) =>
          mkPlacePose ⟨"table1", "world", Pose.id, [⟨0, 0⟩, ⟨1, 0⟩, ⟨1, 1⟩, ⟨0, 1⟩]⟩
            ⟨1, 0, 0, 0⟩ p (1/10 + (k : ℚ) * (1/20)))
        (acceptedPoints [⟨0, 0⟩, ⟨1, 0⟩, ⟨1, 1⟩, ⟨0, 1⟩] (1/2) 0)) ∧
      placeCount ⟨"table1", "world", Pose.id, [⟨0, 0⟩, ⟨1, 0⟩, ⟨1, 1⟩, ⟨0, 1⟩]⟩
        ⟨1, 0, 0, 0⟩ (1/2) (1/10) (1/20) 1 0 =
        (acceptedPoints [⟨0, 0⟩, ⟨1, 0⟩, ⟨1, 1⟩, ⟨0, 1⟩] (1/2) 0).length * 2 :=
  generatePlacePoses_rowmajor_heights _ ⟨1, 0, 0, 0⟩ (1/2) (1/10) (1/20) 1 0
    [⟨0, 0⟩, ⟨1, 0⟩, ⟨1, 1⟩, ⟨0, 1⟩] (by norm_num) (by with_unfolding_all rfl)

/-- C4: `findObjectTable` is a first-match scan of the registry in its
stable iteration order: it returns the name of the first registered
surface whose contour (under the given edge margin and vertical offset)
contains the pose — not the nearest or highest such surface — and the
empty string, not an error, when no registered surface qualifies. -/
theorem findObjectTable_first_match :
    (∀ (tables : List Surface) (pose : PoseMsg) (mde mvo : ℚ),
        findObjectTable tables pose mde mvo =
          ((tables.find? fun t => isInsideTableContour pose t mde mvo).elim ""
            fun t => t.name)) ∧
    (∀ (tables : List Surface) (pose : PoseMsg) (mde mvo : ℚ),
        (∀ t ∈ tables, isInsideTableContour pose t mde mvo = false) →
        findObjectTable tables pose mde mvo = "") := by
  constructor
  · intro tables pose mde mvo
    exact findObjectTable_eq_find pose mde mvo tables
  · intro tables pose mde mvo hnone
    rw [findObjectTable_eq_find pose mde mvo tables]
    rw [List.find?_eq_none.mpr fun t ht => by simp [hnone t ht]]
    rfl

/-- Witness for C4: with two unit-square tables the first qualifying one
wins for an interior pose, and a far-away pose finds no table. -/
theorem findObjectTable_first_match_witness :
    findObjectTable
        [⟨"near", "world", Pose.id, [⟨0, 0⟩, ⟨1, 0⟩, ⟨1, 1⟩, ⟨0, 1⟩]⟩,
          ⟨"far", "world", Pose.id, [⟨0, 0⟩, ⟨1, 0⟩, ⟨1, 1⟩, ⟨0, 1⟩]⟩]
        ⟨⟨5, 5, 0⟩, ⟨1, 0, 0, 0⟩⟩ 0 0 = "" :=
  findObjectTable_first_match.2
    [⟨"near", "world", Pose.id, [⟨0, 0⟩, ⟨1, 0⟩, ⟨1, 1⟩, ⟨0, 1⟩]⟩,
      ⟨"far", "world", Pose.id, [⟨0, 0⟩, ⟨1, 0⟩, ⟨1, 1⟩, ⟨0, 1⟩]⟩]
    ⟨⟨5, 5, 0⟩, ⟨1, 0, 0, 0⟩⟩ 0 0 (by with_unfolding_all decide)

/-- C5: a surface is returned by the region-of-interest query exactly
when at least one vertex of its boundary, transformed into the fixed
frame by the surface pose, lies within the axis-aligned query box (a
vertex-wise test, not full polygon/box intersection), and the name-only
variant lists exactly the names of those surfaces. -/
theorem getTablesInROI_vertex_criterion :
    (∀ (tables : List Surface) (minx miny minz maxx maxy maxz : ℚ) (s : Surface),
        s ∈ getTablesInROI tables minx miny minz maxx maxy maxz ↔
          s ∈ tables ∧ ∃ vtx ∈ s.boundary,
            inROI (s.pose.apply ⟨vtx.x, vtx.y, 0⟩) minx miny minz maxx maxy maxz = true) ∧
    (∀ (tables : List Surface) (minx miny minz maxx maxy maxz : ℚ),
        getTableNamesInROI tables minx miny minz maxx maxy maxz =
          (getTablesInROI tables minx miny minz maxx maxy maxz).map Surface.name) := by
  constructor
  · intro tables minx miny minz maxx maxy maxz s
    rw [mem_getTablesInROI minx miny minz maxx maxy maxz tables s, anyVertexInROI,
      List.any_eq_true]
  · intro tables minx miny minz maxx maxy maxz
    exact getTableNamesInROI_eq_map minx miny minz maxx maxy maxz tables

/-- Witness for C5: a unit-square table at the origin is found by a box
around the origin — its corner vertex lies inside — and the name-only
query returns exactly its name. -/
theorem getTablesInROI_vertex_criterion_witness :
    (⟨"t", "world", Pose.id, [⟨0, 0⟩, ⟨1, 0⟩, ⟨1, 1⟩, ⟨0, 1⟩]⟩ ∈
        getTablesInROI [⟨"t", "world", Pose.id, [⟨0, 0⟩, ⟨1, 0⟩, ⟨1, 1⟩, ⟨0, 1⟩]⟩]
          (-1) (-1) (-1) (1/2) (1/2) (1/2) ↔
      (⟨"t", "world", Pose.id, [⟨0, 0⟩, ⟨1, 0⟩, ⟨1, 1⟩, ⟨0, 1⟩]⟩ ∈
          ([⟨"t", "world", Pose.id, [⟨0, 0⟩, ⟨1, 0⟩, ⟨1, 1⟩, ⟨0, 1⟩]⟩] :
            List Surface) ∧
        ∃ vtx ∈ ([⟨0, 0⟩, ⟨1, 0⟩, ⟨1, 1⟩, ⟨0, 1⟩] : List P2),
          inROI (Pose.id.apply ⟨vtx.x, vtx.y, 0⟩) (-1) (-1) (-1) (1/2) (1/2) (1/2) =
            true)) :=
  getTablesInROI_vertex_criterion.1
    [⟨"t", "world", Pose.id, [⟨0, 0⟩, ⟨1, 0⟩, ⟨1, 1⟩, ⟨0, 1⟩]⟩]
    (-1) (-1) (-1) (1/2) (1/2) (1/2)
    ⟨"t", "world", Pose.id, [⟨0, 0⟩, ⟨1, 0⟩, ⟨1, 1⟩, ⟨0, 1⟩]⟩

/-- C6: for every polygon of nonzero signed area (every simple
non-degenerate polygon), normalization succeeds and returns a polygon of
positive signed area, and it is idempotent: normalizing the returned
polygon gives it back unchanged. -/
theorem orientPlanarPolygon_pos_idem :
    ∀ poly : List P2, signedArea2 poly ≠ 0 →
      orientPlanarPolygon poly = .ok (normed poly) ∧
        0 < signedArea (normed poly) ∧
        orientPlanarPolygon (normed poly) = .ok (normed poly) := by
  intro poly hnz
  have hpos : ∀ q : List P2, 0 < signedArea2 q →
      orientPlanarPolygon q = .ok q := by
    intro q hq
    rw [orientPlanarPolygon]
    rw [if_neg (ne_of_gt hq), if_neg (not_lt.mpr (le_of_lt hq))]
  rcases lt_trichotomy (signedArea2 poly) 0 with hlt | heq | hgt
  · have hrev : orientPlanarPolygon poly = .ok poly.reverse := by
      rw [orientPlanarPolygon, if_neg hnz, if_pos hlt]
    have hnormed : normed poly = poly.reverse := by rw [normed, hrev]
    have hrevpos : 0 < signedArea2 poly.reverse := by
      rw [signedArea2_reverse]
      exact neg_pos.mpr hlt
    refine ⟨by rw [hnormed, hrev], ?_, ?_⟩
    · rw [hnormed, signedArea]
      positivity
    · rw [hnormed]
      exact hpos _ hrevpos
  · exact absurd heq hnz
  · have hok : orientPlanarPolygon poly = .ok poly := hpos poly hgt
    have hnormed : normed poly = poly := by rw [normed, hok]
    refine ⟨by rw [hnormed, hok], ?_, ?_⟩
    · rw [hnormed, signedArea]
      positivity
    · rw [hnormed]
      exact hpos poly hgt

/-- Witness for C6: the clockwise unit square normalizes to its reversal,
which has positive signed area and is a fixed point of normalization. -/
theorem orientPlanarPolygon_pos_idem_witness :
    orientPlanarPolygon [⟨0, 0⟩, ⟨0, 1⟩, ⟨1, 1⟩, ⟨1, 0⟩] =
        .ok (normed [⟨0, 0⟩, ⟨0, 1⟩, ⟨1, 1⟩, ⟨1, 0⟩]) ∧
      0 < signedArea (normed [⟨0, 0⟩, ⟨0, 1⟩, ⟨1, 1⟩, ⟨1, 0⟩]) ∧
      orientPlanarPolygon (normed [⟨0, 0⟩, ⟨0, 1⟩, ⟨1, 1⟩, ⟨1, 0⟩]) =
        .ok (normed [⟨0, 0⟩, ⟨0, 1⟩, ⟨1, 1⟩, ⟨1, 0⟩]) :=
  orientPlanarPolygon_pos_idem [⟨0, 0⟩, ⟨0, 1⟩, ⟨1, 1⟩, ⟨1, 0⟩]
    (by with_unfolding_all decide)

/-- C7: for a fixed surface, orientation, resolution and height
parameters, the candidate count is antitone in the edge margin: a larger
`min_distance_from_edge` never yields more candidates. -/
theorem placeCount_antitone_in_margin :
    ∀ (table : Surface) (orient : Quat) (res hat dh : ℚ) (nh : ℕ) (d1 d2 : ℚ),
      d1 ≤ d2 →
      placeCount table orient res hat dh nh d2 ≤ placeCount table orient res hat dh nh d1 := by
  intro table orient res hat dh nh d1 d2 h12
  by_cases hres : res ≤ 0
  · simp [placeCount, generatePlacePoses, if_pos hres]
  · have hres' : 0 < res := lt_of_not_ge hres
    cases hok : orientPlanarPolygon table.boundary with
    | error e => simp [placeCount, generatePlacePoses, if_neg hres, hok]
    | ok nb =>
      have e1 : placeCount table orient res hat dh nh d1 =
          (acceptedPoints nb res d1).length * (nh + 1) := by
        rw [placeCount, generatePlacePoses_char table orient res hat dh nh d1 nb hres' hok]
        exact listFlat_length_const _ (nh + 1) (fun p => by simp) _
      have e2 : placeCount table orient res hat dh nh d2 =
          (acceptedPoints nb res d2).length * (nh + 1) := by
        rw [placeCount, generatePlacePoses_char table orient res hat dh nh d2 nb hres' hok]
        exact listFlat_length_const _ (nh + 1) (fun p => by simp) _
      rw [e1, e2]
      exact Nat.mul_le_mul_right _
        (filter_length_mono _ _ (fun p => pointInPolygon_mono p nb h12) _)

/-- Witness for C7: on the unit square, a margin of 2/5 yields no more
candidates than a margin of 0. -/
theorem placeCount_antitone_in_margin_witness :
    placeCount ⟨"table1", "world", Pose.id, [⟨0, 0⟩, ⟨1, 0⟩, ⟨1, 1⟩, ⟨0, 1⟩]⟩
        ⟨1, 0, 0, 0⟩ (1/2) (1/10) (1/20) 1 (2/5) ≤
      placeCount ⟨"table1", "world", Pose.id, [⟨0, 0⟩, ⟨1, 0⟩, ⟨1, 1⟩, ⟨0, 1⟩]⟩
        ⟨1, 0, 0, 0⟩ (1/2) (1/10) (1/20) 1 0 :=
  placeCount_antitone_in_margin _ ⟨1, 0, 0, 0⟩ (1/2) (1/10) (1/20) 1 0 (2/5)
    (by norm_num)

end SemanticWorld
